import Mathlib

set_option maxHeartbeats 1000000

/-!
Shallow embedding of the bonding-decision core in
src/packages/hop-node/src/watchers/BondTransferRootWatcher.ts.

Amounts are BigNumber values holding unsigned token amounts, modelled as
Nat; where the source performs a BigNumber subtraction that may go
negative, the comparison is carried out over Int.  Each watcher method is
modelled as a pure function from an environment (the values returned by
the store, the hub-chain client, the liquidity oracle and the
configuration during one evaluation) to the ordered list of observable
side effects (log lines, notifier calls, store writes, the vault
withdrawal and the bonding transaction) together with an outcome (normal
return or an uncaught thrown error).
-/

/-- A transfer root record as stored in the transfer-roots store,
restricted to the fields BondTransferRootWatcher reads. -/
structure TransferRoot where
  transferRootId : String
  transferRootHash : String
  totalAmount : Nat
  destinationChainId : Nat
  committedAt : Nat
  sourceChainId : Nat
  transferIds : Option (List String)
  sentBondTxAt : Option Nat
  isNotFound : Option Bool
deriving DecidableEq

/-- Modelled from the spec: getTransferRootId (src/utils/getTransferRootId,
not under src/) derives the root id as a pure, deterministic function of
(rootHash, totalAmount) ("rootId is a pure function of (rootHash,
totalAmount)"). -/
def getTransferRootId (transferRootHash : String) (totalAmount : Nat) : String :=
  transferRootHash ++ ":" ++ toString totalAmount

/-- One observable side effect of an evaluation, in order of occurrence:
logger lines, notifier calls, transfer-root store updates, the vault
withdraw-and-stake call and the bonding transaction dispatch. -/
inductive Event where
  | logDebug (msg : String)
  | logInfo (msg : String)
  | logWarn (msg : String)
  | logError (msg : String)
  | notifierInfo (msg : String)
  | notifierError (msg : String)
  | dbUpdateIsNotFound (transferRootId : String)
  | dbUpdateSentBondTxAt (transferRootId : String) (time : Nat)
  | withdrawFromVaultAndStake (amount : Nat)
  | bondTransferRootTx (transferRootHash : String) (destinationChainId : Nat) (totalAmount : Nat)
deriving DecidableEq

/-- How the evaluation finishes: a normal return, or an uncaught thrown
error carrying its message. -/
inductive Outcome where
  | returned
  | threw (msg : String)
deriving DecidableEq

/-- The values the watcher observes from its collaborators during one
poll-cycle evaluation: the clock, hub-chain client reads, the liquidity
oracle, configuration flags, store reads, and the results of the two
remote write calls (vault withdrawal, bonding transaction). `merkleRoot`
stands for MerkleTree(...).getHexRoot() from src/utils/MerkleTree (not
under src/), a pure function of the ordered transfer id list. -/
structure Env where
  now : Nat
  minDelaySec : Nat
  isBonded : Bool
  merkleRoot : List String → String
  getBondForTransferAmount : Nat → Nat
  availableCredit : Nat
  dryMode : Bool
  autoWithdraw : Nat → Bool
  vaultAvailableCredit : Nat
  vaultBalance : Nat
  withdrawErr : Option String
  dbLookup : String → Option TransferRoot
  twoWeeksRoots : List TransferRoot
  bridgeChainId : Nat
  bondTxErr : Option String
  bondTxHash : String

/-- withdrawFromVaultIfNeeded: a no-op unless the per-token/per-chain
autoWithdraw flag is set; otherwise, inside the mutex, re-read credit and
vault balance fresh and withdraw the full vault balance exactly when
(availableCredit - vaultBalance) < bondAmount (BigNumber arithmetic is
signed, so the subtraction is over Int).  A failing withdrawal is
notified, logged and rethrown. -/
def withdrawFromVaultIfNeeded (env : Env) (destinationChainId : Nat) (bondAmount : Nat) :
    List Event × Outcome :=
  if env.autoWithdraw destinationChainId = false then
    ([], Outcome.returned)
  else
    let availableCredit := env.vaultAvailableCredit
    let vaultBalance := env.vaultBalance
    let shouldWithdraw : Bool :=
      decide ((availableCredit : Int) - (vaultBalance : Int) < (bondAmount : Int))
    let debugEv := Event.logDebug ("availableCredit: " ++ toString availableCredit ++
      ", vaultBalance: " ++ toString vaultBalance ++
      ", bondAmount: " ++ toString bondAmount ++
      ", shouldWithdraw: " ++ toString shouldWithdraw)
    if shouldWithdraw then
      let msg := "attempting withdrawFromVaultAndStake. amount: " ++ toString vaultBalance
      match env.withdrawErr with
      | some e =>
        let errMsg := "withdrawFromVaultAndStake error: " ++ e
        ([debugEv, Event.notifierInfo msg, Event.logInfo msg,
          Event.withdrawFromVaultAndStake vaultBalance,
          Event.notifierError errMsg, Event.logError errMsg], Outcome.threw e)
      | none =>
        ([debugEv, Event.notifierInfo msg, Event.logInfo msg,
          Event.withdrawFromVaultAndStake vaultBalance], Outcome.returned)
    else
      ([debugEv], Outcome.returned)

/-- JavaScript String.prototype.toLowerCase as used on transfer ids
(hex strings), modelled as the character-wise lower-case mapping. -/
def toLowerCase (s : String) : String :=
  String.mk (s.data.map Char.toLower)

/-- The flattening loop of isPreTransactionDataValid: push the
case-normalized transfer ids of every two-week-window record whose
sourceChainId equals the watcher bridge chain id; records from other
chains are skipped before the non-null assertion, but a same-chain record
with absent transferIds makes the dereference throw. -/
def collectDbTransferIds (chainId : Nat) : List TransferRoot → Except String (List String)
  | [] => Except.ok []
  | r :: rest =>
    if r.sourceChainId ≠ chainId then
      collectDbTransferIds chainId rest
    else
      match r.transferIds with
      | none => Except.error "TypeError: dbTransferRoot.transferIds is undefined"
      | some tids =>
        match collectDbTransferIds chainId rest with
        | Except.error e => Except.error e
        | Except.ok acc => Except.ok (tids.map toLowerCase ++ acc)

/-- isPreTransactionDataValid: the pre-transaction reorg validator.
Checks, in order: the record fetched under the recomputed root id exists
and carries exactly that id; its destinationChainId matches the one about
to be used; each of its case-normalized transfer ids occurs exactly once
among the flattened case-normalized transfer ids of all same-source-chain
two-week-window records.  Returns the logger events together with either
the boolean verdict or a thrown TypeError from a non-null assertion
dereference of an absent transferIds field. -/
def isPreTransactionDataValid (env : Env) (transferRootHash : String)
    (destinationChainId : Nat) (totalAmount : Nat) :
    List Event × Except String Bool :=
  let calculatedTransferRootId := getTransferRootId transferRootHash totalAmount
  match env.dbLookup calculatedTransferRootId with
  | none =>
    ([Event.logError ("Calculated calculatedTransferRootId (" ++ calculatedTransferRootId ++
      ") does not match transferRootId in db")], Except.ok false)
  | some calculatedDbTransferRoot =>
    if calculatedDbTransferRoot.transferRootId ≠ calculatedTransferRootId then
      ([Event.logError ("Calculated calculatedTransferRootId (" ++ calculatedTransferRootId ++
        ") does not match transferRootId in db")], Except.ok false)
    else if calculatedDbTransferRoot.destinationChainId ≠ destinationChainId then
      ([Event.logError ("destinationChainId (" ++ toString destinationChainId ++
        ") does not match destinationChainId in db")], Except.ok false)
    else
      match calculatedDbTransferRoot.transferIds with
      | none => ([], Except.error "TypeError: calculatedDbTransferRoot.transferIds is undefined")
      | some tids =>
        let transferIds := tids.map toLowerCase
        match collectDbTransferIds env.bridgeChainId env.twoWeeksRoots with
        | Except.error e => ([], Except.error e)
        | Except.ok dbTransferIds =>
          let areTransferIdsUnique := transferIds.all (fun transferId =>
            (dbTransferIds.filter (fun dbTransferId => dbTransferId == transferId)).length == 1)
          if areTransferIdsUnique = false then
            ([Event.logError "transferIds are either not unique and exist in multiple transferRoots or do not exist in any root"],
             Except.ok false)
          else
            ([], Except.ok true)

/-- sendBondTransferRoot: run the reorg-safety validator immediately
before transmission; a false verdict throws without sending, otherwise
bondTransferRoot is called on the L1 bridge and its result (transaction
hash or failure) is returned. -/
def sendBondTransferRoot (env : Env) (transferRootHash : String)
    (destinationChainId : Nat) (totalAmount : Nat) :
    List Event × Except String String :=
  let v := isPreTransactionDataValid env transferRootHash destinationChainId totalAmount
  match v.2 with
  | Except.error e => (v.1, Except.error e)
  | Except.ok false => (v.1, Except.error "Possible reorg detected. bondTransferRoot tx not sent")
  | Except.ok true =>
    match env.bondTxErr with
    | some e =>
      (v.1 ++ [Event.bondTransferRootTx transferRootHash destinationChainId totalAmount],
       Except.error e)
    | none =>
      (v.1 ++ [Event.bondTransferRootTx transferRootHash destinationChainId totalAmount],
       Except.ok env.bondTxHash)

/-- The tail of checkTransfersCommitted past the dry-run gate: vault
ensure, the "attempting to bond" log line, the sentBondTxAt intent write,
then sendBondTransferRoot inside the try/catch (success is logged and
notified; failure is logged and the error rethrown). -/
def sendStage (env : Env) (transferRootId transferRootHash : String)
    (totalAmount destinationChainId bondAmount : Nat) :
    List Event × Outcome :=
  let vault := withdrawFromVaultIfNeeded env destinationChainId bondAmount
  match vault.2 with
  | Outcome.threw e => (vault.1, Outcome.threw e)
  | Outcome.returned =>
    let events2 := vault.1 ++
      [Event.logDebug ("attempting to bond transfer root id " ++ transferRootId ++
        " with destination chain " ++ toString destinationChainId),
       Event.dbUpdateSentBondTxAt transferRootId env.now]
    let send := sendBondTransferRoot env transferRootHash destinationChainId totalAmount
    match send.2 with
    | Except.error e =>
      (events2 ++ send.1 ++ [Event.logError ("sendBondTransferRoot error: " ++ e)],
       Outcome.threw e)
    | Except.ok txHash =>
      let msg := "L1 bondTransferRoot dest " ++ toString destinationChainId ++
        ", tx " ++ txHash ++ " transferRootHash: " ++ transferRootHash
      (events2 ++ send.1 ++ [Event.logInfo msg, Event.notifierInfo msg], Outcome.returned)

/-- The block of info/debug log lines checkTransfersCommitted emits
after the already-bonded check. -/
def rootLogEvents (transferRootId transferRootHash : String)
    (totalAmount destinationChainId committedAt sourceChainId : Nat) : List Event :=
  [Event.logInfo ("source: " ++ toString sourceChainId ++ " transferRootId: " ++
     transferRootId ++ " transferRootHash: " ++ transferRootHash),
   Event.logDebug ("committedAt: " ++ toString committedAt),
   Event.logDebug ("destinationChainId: " ++ toString destinationChainId),
   Event.logDebug ("sourceChainId: " ++ toString sourceChainId),
   Event.logDebug ("transferRootId: " ++ transferRootId),
   Event.logDebug ("transferRootHash: " ++ transferRootHash),
   Event.logDebug ("totalAmount: " ++ toString totalAmount),
   Event.logDebug ("transferRootId: " ++ transferRootId),
   Event.logDebug "transferRootHash transferIds:"]

/-- The debug line of the merkle verification block, emitted whenever
transfer ids are known. -/
def hashCheckEvents (env : Env) (pendingTransfers : List String) : List Event :=
  if 0 < pendingTransfers.length then
    [Event.logDebug ("calculated transfer root hash: " ++ env.merkleRoot pendingTransfers)]
  else []

/-- checkTransfersCommitted: one evaluation of a transfer root, in the
fixed order of the source: timing gate (delta = now - committedAt*1000 -
minDelaySec*1000 must be strictly positive), remote already-bonded check
(marks isNotFound and stops), the block of info/debug log lines, merkle
hash verification when transfer ids are known, precise credit check
against the bond amount (logged and notified when insufficient), dry-run
gate, then the send stage. -/
def checkTransfersCommitted (env : Env) (transferRootId transferRootHash : String)
    (totalAmount destinationChainId committedAt sourceChainId : Nat)
    (transferIds : Option (List String)) : List Event × Outcome :=
  let minDelayMs := env.minDelaySec * 1000
  let committedAtMs := committedAt * 1000
  let delta : Int := (env.now : Int) - (committedAtMs : Int) - (minDelayMs : Int)
  let shouldBond : Bool := decide (0 < delta)
  if shouldBond = false then
    ([Event.logDebug ("too early to bond. Must wait " ++ toString delta.natAbs ++ " milliseconds")],
     Outcome.returned)
  else if env.isBonded then
    ([Event.logWarn "checkTransfersCommitted already bonded. marking item not found.",
      Event.dbUpdateIsNotFound transferRootId], Outcome.returned)
  else
    let pendingTransfers := transferIds.getD []
    let infoEvents := rootLogEvents transferRootId transferRootHash totalAmount
      destinationChainId committedAt sourceChainId
    let hashEvents := hashCheckEvents env pendingTransfers
    if 0 < pendingTransfers.length ∧ env.merkleRoot pendingTransfers ≠ transferRootHash then
      (infoEvents ++ hashEvents ++ [Event.logError "calculated transfer root hash does not match"],
       Outcome.returned)
    else
      let bondAmount := env.getBondForTransferAmount totalAmount
      let availableCredit := env.availableCredit
      if availableCredit < bondAmount then
        let msg := "not enough credit to bond transferRoot. Have " ++ toString availableCredit ++
          ", need " ++ toString bondAmount
        (infoEvents ++ hashEvents ++ [Event.logError msg, Event.notifierError msg],
         Outcome.returned)
      else if env.dryMode then
        (infoEvents ++ hashEvents ++
          [Event.logWarn ("dry: " ++ toString env.dryMode ++ ", skipping bondTransferRoot")],
         Outcome.returned)
      else
        let stage := sendStage env transferRootId transferRootHash totalAmount destinationChainId bondAmount
        (infoEvents ++ hashEvents ++ stage.1, stage.2)

/-- Outcome of Promise.all over the per-root evaluations: the first
thrown error, if any, rejects the whole cycle. -/
def combineOutcomes : List Outcome → Outcome
  | [] => Outcome.returned
  | Outcome.threw e :: _ => Outcome.threw e
  | Outcome.returned :: rest => combineOutcomes rest

/-- One iteration of the loop in checkTransfersCommittedFromDb: the
coarse per-root pre-filter skips with only a debug log when
availableCredit < totalAmount, otherwise the full evaluation runs. -/
def processDbTransferRoot (env : Env) (r : TransferRoot) : List Event × Outcome :=
  if env.availableCredit < r.totalAmount then
    ([Event.logDebug ("not enough credit to bond transferRoot. Have " ++
       toString env.availableCredit ++ ", need " ++ toString r.totalAmount)],
     Outcome.returned)
  else
    checkTransfersCommitted env r.transferRootId r.transferRootHash r.totalAmount
      r.destinationChainId r.committedAt r.sourceChainId r.transferIds

/-- checkTransfersCommittedFromDb: log and return when there is nothing
to do, otherwise log the count and run every root through the coarse
filter and evaluation, collecting all side effects. -/
def checkTransfersCommittedFromDb (env : Env) (dbTransferRoots : List TransferRoot) :
    List Event × Outcome :=
  if dbTransferRoots.length = 0 then
    ([Event.logDebug "no unbonded transfer root db items to check"], Outcome.returned)
  else
    let results := dbTransferRoots.map (processDbTransferRoot env)
    (Event.logInfo ("checking " ++ toString dbTransferRoots.length ++
       " unbonded transfer roots db items") :: (results.map Prod.fst).flatten,
     combineOutcomes (results.map Prod.snd))

/-- Modelled from the spec: the store query getUnbondedTransferRoots
(src/db/TransferRootsDb, not under src/) never selects a record marked
isNotFound nor one whose sentBondTxAt marker is set ("once a root is
marked isNotFound or has a confirmed bond, it must never again be
selected by the unbonded-roots query"; "sentBondTxAt ... exists to
prevent the same root from being re-selected as pending"). -/
def getUnbondedTransferRoots (roots : List TransferRoot) : List TransferRoot :=
  roots.filter (fun r => !(r.isNotFound == some true) && r.sentBondTxAt == none)

/-- Classifier: a run the timing gate rejected, which is the only path
of checkTransfersCommitted producing a single debug line and nothing
else. -/
def abortedTooEarly (res : List Event × Outcome) : Bool :=
  match res.1 with
  | [Event.logDebug _] => res.2 == Outcome.returned
  | _ => false

/-- Classifier: a run that ended at the precise-credit insufficiency
abort, the only normal-return path of checkTransfersCommitted whose final
event is a notifier error. -/
def abortedInsufficientCredit (res : List Event × Outcome) : Bool :=
  match res.1.getLast? with
  | some (Event.notifierError _) => res.2 == Outcome.returned
  | _ => false

/-- Classifier for notifier-error events. -/
def isNotifierErrorEvent : Event → Bool
  | Event.notifierError _ => true
  | _ => false

/-- Classifier for the externally visible state-changing effects the
dry-run gate must suppress: vault withdrawal, the sentBondTxAt intent
write, and the bonding transaction. -/
def isSideEffectEvent : Event → Bool
  | Event.dbUpdateSentBondTxAt _ _ => true
  | Event.withdrawFromVaultAndStake _ => true
  | Event.bondTransferRootTx _ _ _ => true
  | _ => false

/-- Classifier for ok (non-thrown) validator results. -/
def isOkResult : Except String Bool → Bool
  | Except.ok _ => true
  | Except.error _ => false

/-- The ReorgSafetyValidator contract exactly as the specification words
it: the stored record fetched under the recomputed root id exists with
exactly that id and the destination chain about to be used, and each of
its case-normalized transfer ids occurs exactly once among the flattened
case-normalized transfer ids of the same-source-chain two-week-window
records. -/
def reorgValidatorSpecOk (env : Env) (transferRootHash : String)
    (destinationChainId totalAmount : Nat) : Bool :=
  let rootId := getTransferRootId transferRootHash totalAmount
  match env.dbLookup rootId with
  | none => false
  | some stored =>
    stored.transferRootId == rootId &&
    stored.destinationChainId == destinationChainId &&
    (let targetIds := (stored.transferIds.getD []).map toLowerCase
     let flattened := ((env.twoWeeksRoots.filter
        (fun w => w.sourceChainId == env.bridgeChainId)).map
        (fun w => (w.transferIds.getD []).map toLowerCase)).flatten
     targetIds.all (fun t => (flattened.filter (fun d => d == t)).length == 1))

/-- A concrete environment used to instantiate the theorems on explicit
inputs; individual scenarios override the relevant fields. -/
def baseEnv : Env where
  now := 0
  minDelaySec := 0
  isBonded := false
  merkleRoot := fun _ => "0xroot"
  getBondForTransferAmount := fun n => n
  availableCredit := 0
  dryMode := false
  autoWithdraw := fun _ => false
  vaultAvailableCredit := 0
  vaultBalance := 0
  withdrawErr := none
  dbLookup := fun _ => none
  twoWeeksRoots := []
  bridgeChainId := 1
  bondTxHash := "0xtx"
  bondTxErr := none

/-- Concrete scenario for the timing boundary: committedAt = 5 s,
minDelay = 10 s, clock at exactly (5 + 10) * 1000 ms. -/
def envC1 : Env :=
  { baseEnv with now := 15000, minDelaySec := 10 }

/-- Concrete scenario for the credit boundary: the bond amount required
for totalAmount = 10 is 10, one unit above the available credit. -/
def envC4 : Env :=
  { baseEnv with now := 20000, minDelaySec := 10, availableCredit := 9 }

/-- Concrete scenario for the withdrawal boundary: autoWithdraw enabled,
availableCredit - vaultBalance = 6. -/
def envC5 : Env :=
  { baseEnv with autoWithdraw := fun _ => true, vaultAvailableCredit := 10, vaultBalance := 4 }

/-- Concrete scenario for the already-bonded path: the timing gate has
passed and the hub chain reports the root id as bonded. -/
def envC6 : Env :=
  { baseEnv with now := 20000, minDelaySec := 10, isBonded := true }

/-- Concrete scenario for the dry-run gate: every earlier gate passes and
the watcher is in simulate-only mode. -/
def envC9 : Env :=
  { baseEnv with now := 20000, minDelaySec := 10, availableCredit := 5, dryMode := true }

/-- Concrete scenario for insufficient credit: available credit 3 against
a total amount (and bond amount) of 10. -/
def envC7 : Env :=
  { baseEnv with now := 20000, minDelaySec := 10, availableCredit := 3 }

/-- A concrete unbonded transfer root whose totalAmount exceeds the
available credit of envC7. -/
def rootC7 : TransferRoot where
  transferRootId := "r7"
  transferRootHash := "h7"
  totalAmount := 10
  destinationChainId := 7
  committedAt := 5
  sourceChainId := 2
  transferIds := none
  sentBondTxAt := none
  isNotFound := none

/-- A concrete stored record consistent with rootHash "h2" and
totalAmount 5, with its transfer ids known. -/
def rootC2 : TransferRoot where
  transferRootId := "h2:5"
  transferRootHash := "h2"
  totalAmount := 5
  destinationChainId := 7
  committedAt := 5
  sourceChainId := 2
  transferIds := some ["A", "B"]
  sentBondTxAt := none
  isNotFound := none

/-- Concrete scenario for the reorg validator: the store holds rootC2
under its id and the two-week window is exactly that record. -/
def envC2 : Env :=
  { baseEnv with
    bridgeChainId := 2
    dbLookup := fun s => if s = "h2:5" then some rootC2 else none
    twoWeeksRoots := [rootC2] }

/-- A stored record with matching id and destination chain whose
transferIds field is absent. -/
def rootC10 : TransferRoot where
  transferRootId := "hA:5"
  transferRootHash := "hA"
  totalAmount := 5
  destinationChainId := 7
  committedAt := 5
  sourceChainId := 2
  transferIds := none
  sentBondTxAt := none
  isNotFound := none

/-- Concrete scenario for the missing-transferIds dereference: the store
holds rootC10 under its id. -/
def envC10 : Env :=
  { baseEnv with dbLookup := fun s => if s = "hA:5" then some rootC10 else none }

/-- A stored record consistent with rootHash "h8" and totalAmount 5,
whose reorg validation passes. -/
def rootC8 : TransferRoot where
  transferRootId := "h8:5"
  transferRootHash := "h8"
  totalAmount := 5
  destinationChainId := 7
  committedAt := 5
  sourceChainId := 2
  transferIds := some ["A"]
  sentBondTxAt := none
  isNotFound := none

/-- Concrete scenario for a failing bonding transaction: every gate
passes, validation succeeds, and the hub-chain dispatch fails with
"boom". -/
def envC8 : Env :=
  { baseEnv with
    now := 20000
    minDelaySec := 10
    availableCredit := 5
    bridgeChainId := 2
    dbLookup := fun s => if s = "h8:5" then some rootC8 else none
    twoWeeksRoots := [rootC8]
    bondTxErr := some "boom" }

/-! ## Helper lemmas -/

theorem abortedTooEarly_logInfo_head (s : String) (l : List Event) (o : Outcome) :
    abortedTooEarly (Event.logInfo s :: l, o) = false := by
  cases l with
  | nil => rfl
  | cons a l' => rfl

theorem abortedTooEarly_logWarn_head (s : String) (l : List Event) (o : Outcome) :
    abortedTooEarly (Event.logWarn s :: l, o) = false := by
  cases l with
  | nil => rfl
  | cons a l' => rfl

/-! ## Claim C1 -/

/-- Claim C1 (amended): with committedAt = T seconds and hub minimum
delay D seconds, a root evaluation aborts as too-early exactly when the
clock is at or before (T + D) * 1000 ms.  In particular every evaluation
strictly before T + D aborts as the claim states, but the gate is strict:
evaluation proceeds only strictly after T + D, not at exactly T + D. -/
theorem timingGate_strict_iff (env : Env) (rid rhash : String)
    (amt dest cat src : Nat) (tids : Option (List String)) :
    abortedTooEarly (checkTransfersCommitted env rid rhash amt dest cat src tids) = true
      ↔ env.now ≤ (cat + env.minDelaySec) * 1000 := by
  simp only [checkTransfersCommitted]
  split
  next hcond =>
    simp only [abortedTooEarly, beq_self_eq_true, true_iff]
    simp only [decide_eq_false_iff_not, not_lt] at hcond
    have h1000 : ((cat * 1000 : Nat) : Int) = (cat : Int) * 1000 := by push_cast; ring
    omega
  next hcond =>
    simp only [decide_eq_false_iff_not, not_not, Decidable.not_not] at hcond
    apply iff_of_false
    · split
      · simp [abortedTooEarly_logWarn_head]
      · split
        · simp [rootLogEvents, abortedTooEarly_logInfo_head]
        · split
          · simp [rootLogEvents, abortedTooEarly_logInfo_head]
          · split
            · simp [rootLogEvents, abortedTooEarly_logInfo_head]
            · simp [rootLogEvents, abortedTooEarly_logInfo_head]
    · have h1000 : ((cat * 1000 : Nat) : Int) = (cat : Int) * 1000 := by push_cast; ring
      omega

/-- Claim C1 counterexample: with committedAt = 5 s, minDelay = 10 s and
the clock at exactly (5 + 10) * 1000 ms, the evaluation aborts as
too-early instead of proceeding past the timing gate. -/
theorem timingGate_boundary_counterexample :
    envC1.now = (5 + envC1.minDelaySec) * 1000 ∧
    abortedTooEarly (checkTransfersCommitted envC1 "r1" "h1" 1 10 5 2 none) = true := by
  exact ⟨rfl, rfl⟩

/-- Witness for timingGate_strict_iff: one second before the release
time, the evaluation aborts as too-early. -/
theorem timingGate_strict_iff_witness :
    abortedTooEarly (checkTransfersCommitted { envC1 with now := 14000 } "r1" "h1" 1 10 5 2 none) = true :=
  (timingGate_strict_iff { envC1 with now := 14000 } "r1" "h1" 1 10 5 2 none).mpr (by decide)

/-! ## Claim C4 -/

theorem getLast?_append_tail (l₁ l₂ : List Event) (h : l₂ ≠ []) :
    (l₁ ++ l₂).getLast? = l₂.getLast? :=
  List.getLast?_append_of_ne_nil l₁ h

theorem abortedInsufficientCredit_threw (l : List Event) (e : String) :
    abortedInsufficientCredit (l, Outcome.threw e) = false := by
  simp only [abortedInsufficientCredit]
  cases h : l.getLast? with
  | none => rfl
  | some ev => cases ev <;> rfl

theorem abortedInsufficientCredit_sendStage (env : Env) (rid rhash : String)
    (amt dest bond : Nat) (p : List Event) :
    abortedInsufficientCredit
      (p ++ (sendStage env rid rhash amt dest bond).1,
       (sendStage env rid rhash amt dest bond).2) = false := by
  simp only [sendStage]
  cases hv : (withdrawFromVaultIfNeeded env dest bond).2 with
  | threw e => exact abortedInsufficientCredit_threw _ e
  | returned =>
    cases hs : (sendBondTransferRoot env rhash dest amt).2 with
    | error e => exact abortedInsufficientCredit_threw _ e
    | ok tx =>
      simp only [abortedInsufficientCredit]
      rw [getLast?_append_tail _ _ (by simp), getLast?_append_tail _ _ (by simp)]
      rfl

/-- Claim C4: reaching the precise credit check (timing gate passed, not
already bonded, hash verification passing), the evaluation aborts as
insufficient exactly when availableCredit < requiredBondAmount, with the
strict unsigned comparison of the source: equality passes the gate. -/
theorem preciseCreditGate_strict (env : Env) (rid rhash : String)
    (amt dest cat src : Nat) (tids : Option (List String))
    (hgate : (cat + env.minDelaySec) * 1000 < env.now)
    (hnb : env.isBonded = false)
    (hhash : tids.getD [] = [] ∨ env.merkleRoot (tids.getD []) = rhash) :
    abortedInsufficientCredit (checkTransfersCommitted env rid rhash amt dest cat src tids) = true
      ↔ env.availableCredit < env.getBondForTransferAmount amt := by
  simp only [checkTransfersCommitted]
  split
  next hcond =>
    exfalso
    simp only [decide_eq_false_iff_not, not_lt] at hcond
    have h1000 : ((cat * 1000 : Nat) : Int) = (cat : Int) * 1000 := by push_cast; ring
    omega
  next hcond =>
    split
    next hb => rw [hnb] at hb; exact absurd hb (by simp)
    next hb =>
      split
      next hhashfail =>
        exfalso
        rcases hhash with h | h
        · rw [h] at hhashfail
          simp at hhashfail
        · exact hhashfail.2 h
      next =>
        split
        next hins =>
          apply iff_of_true _ hins
          simp only [abortedInsufficientCredit]
          rw [getLast?_append_tail _ _ (by simp)]
          rfl
        next hins =>
          split
          next hdry =>
            apply iff_of_false _ hins
            simp only [abortedInsufficientCredit]
            rw [getLast?_append_tail _ _ (by simp)]
            exact fun h => Bool.noConfusion h
          next hdry =>
            apply iff_of_false _ hins
            rw [abortedInsufficientCredit_sendStage]
            simp

/-- Witness for preciseCreditGate_strict: with the required bond amount
one unit above the available credit, the evaluation aborts as
insufficient. -/
theorem preciseCreditGate_strict_witness :
    abortedInsufficientCredit (checkTransfersCommitted envC4 "r4" "h4" 10 7 5 2 none) = true :=
  (preciseCreditGate_strict envC4 "r4" "h4" 10 7 5 2 none (by decide) rfl
    (Or.inl rfl)).mpr (by decide)

/-! ## Claim C5 -/

/-- Claim C5: the vault-ensure step is a no-op when the per-token /
per-chain autoWithdraw flag is false; otherwise it invokes
withdraw-and-restake, always with the full current vault balance, exactly
when (availableCredit - vaultBalance) < requiredBondAmount under the
strict signed comparison, so equality does not trigger withdrawal. -/
theorem vaultWithdraw_strict (env : Env) (dest bond : Nat) :
    (env.autoWithdraw dest = false →
      withdrawFromVaultIfNeeded env dest bond = ([], Outcome.returned))
    ∧ (∀ amt, Event.withdrawFromVaultAndStake amt ∈ (withdrawFromVaultIfNeeded env dest bond).1 →
        amt = env.vaultBalance)
    ∧ (Event.withdrawFromVaultAndStake env.vaultBalance ∈ (withdrawFromVaultIfNeeded env dest bond).1
        ↔ env.autoWithdraw dest = true ∧
          (env.vaultAvailableCredit : Int) - (env.vaultBalance : Int) < (bond : Int)) := by
  refine ⟨?_, ?_, ?_⟩
  · intro hflag
    simp only [withdrawFromVaultIfNeeded, hflag]
    simp
  · intro amt hm
    simp only [withdrawFromVaultIfNeeded] at hm
    split at hm
    · simp at hm
    · split at hm
      · cases henv : env.withdrawErr <;> rw [henv] at hm <;> simp_all
      · simp at hm
  · simp only [withdrawFromVaultIfNeeded]
    split
    next hflag =>
      simp [hflag]
    next hflag =>
      have hflag' : env.autoWithdraw dest = true := by
        cases h : env.autoWithdraw dest
        · exact absurd h hflag
        · rfl
      split
      next hsw =>
        rw [decide_eq_true_eq] at hsw
        cases henv : env.withdrawErr <;> simp [hflag', hsw]
      next hsw =>
        simp only [decide_eq_true_eq] at hsw
        simp [hflag', hsw]

/-- Witness for vaultWithdraw_strict: with the flag on and
availableCredit - vaultBalance = 6 strictly below bondAmount = 7, the
full vault balance is withdrawn. -/
theorem vaultWithdraw_strict_witness :
    Event.withdrawFromVaultAndStake envC5.vaultBalance ∈ (withdrawFromVaultIfNeeded envC5 3 7).1 :=
  (vaultWithdraw_strict envC5 3 7).2.2.mpr ⟨rfl, by decide⟩

/-! ## Claim C6 -/

/-- Claim C6: once the timing gate has passed, a root the hub chain
reports as already bonded has isNotFound = true persisted to the store
and the evaluation stops: the exact trace is the warning plus the store
update, so no hash verification, credit check, vault operation, intent
write or transaction occurs; and a record carrying isNotFound = true is
never selected again by the unbonded-roots query (store query modelled
from the spec), making the outcome terminal. -/
theorem alreadyBonded_terminal (env : Env) (rid rhash : String)
    (amt dest cat src : Nat) (tids : Option (List String))
    (hgate : (cat + env.minDelaySec) * 1000 < env.now)
    (hb : env.isBonded = true) :
    checkTransfersCommitted env rid rhash amt dest cat src tids
      = ([Event.logWarn "checkTransfersCommitted already bonded. marking item not found.",
          Event.dbUpdateIsNotFound rid], Outcome.returned)
    ∧ ∀ (r : TransferRoot) (roots : List TransferRoot),
        r.isNotFound = some true → r ∉ getUnbondedTransferRoots roots := by
  constructor
  · simp only [checkTransfersCommitted]
    split
    next hcond =>
      exfalso
      simp only [decide_eq_false_iff_not, not_lt] at hcond
      have h1000 : ((cat * 1000 : Nat) : Int) = (cat : Int) * 1000 := by push_cast; ring
      omega
    next hcond =>
      rfl
  · intro r roots hnf hmem
    simp only [getUnbondedTransferRoots, List.mem_filter] at hmem
    rw [hnf] at hmem
    simp at hmem

/-- Witness for alreadyBonded_terminal at a concrete input. -/
theorem alreadyBonded_terminal_witness :
    checkTransfersCommitted envC6 "r6" "h6" 1 7 5 2 none
      = ([Event.logWarn "checkTransfersCommitted already bonded. marking item not found.",
          Event.dbUpdateIsNotFound "r6"], Outcome.returned) :=
  (alreadyBonded_terminal envC6 "r6" "h6" 1 7 5 2 none (by decide) rfl).1

/-! ## Claim C9 -/

theorem mem_ite_singleton {c : Prop} [Decidable c] (ev x : Event)
    (h : ev ∈ (if c then [x] else ([] : List Event))) : ev = x := by
  split at h
  · simpa using h
  · simp at h

/-- Claim C9: in simulate-only mode, every evaluation that passes the
precise credit check returns normally right after the dry-run warning,
with none of the state-changing effects: no vault withdrawal, no
sentBondTxAt store write, and no bonding transaction dispatched. -/
theorem dryMode_no_side_effects (env : Env) (rid rhash : String)
    (amt dest cat src : Nat) (tids : Option (List String))
    (hgate : (cat + env.minDelaySec) * 1000 < env.now)
    (hnb : env.isBonded = false)
    (hhash : tids.getD [] = [] ∨ env.merkleRoot (tids.getD []) = rhash)
    (hcredit : ¬ env.availableCredit < env.getBondForTransferAmount amt)
    (hdry : env.dryMode = true) :
    (checkTransfersCommitted env rid rhash amt dest cat src tids).2 = Outcome.returned
    ∧ Event.logWarn ("dry: " ++ toString env.dryMode ++ ", skipping bondTransferRoot")
        ∈ (checkTransfersCommitted env rid rhash amt dest cat src tids).1
    ∧ ∀ ev ∈ (checkTransfersCommitted env rid rhash amt dest cat src tids).1,
        isSideEffectEvent ev = false := by
  have hres : checkTransfersCommitted env rid rhash amt dest cat src tids
      = (rootLogEvents rid rhash amt dest cat src ++ hashCheckEvents env (tids.getD []) ++
          [Event.logWarn ("dry: " ++ toString env.dryMode ++ ", skipping bondTransferRoot")],
         Outcome.returned) := by
    simp only [checkTransfersCommitted]
    split
    next hcond =>
      exfalso
      simp only [decide_eq_false_iff_not, not_lt] at hcond
      have h1000 : ((cat * 1000 : Nat) : Int) = (cat : Int) * 1000 := by push_cast; ring
      omega
    next hcond =>
      split
      next hb => rw [hnb] at hb; exact absurd hb (by simp)
      next hb =>
        split
        next hhashfail =>
          exfalso
          rcases hhash with h | h
          · rw [h] at hhashfail
            simp at hhashfail
          · exact hhashfail.2 h
        next => rfl
  rw [hres]
  refine ⟨rfl, by simp, ?_⟩
  intro ev hev
  simp only [List.append_assoc, List.mem_append, List.mem_singleton] at hev
  rcases hev with hev | hev | hev
  · simp only [rootLogEvents, List.mem_cons, List.not_mem_nil, or_false] at hev
    rcases hev with h|h|h|h|h|h|h|h|h <;> subst h <;> rfl
  · have := mem_ite_singleton ev _ hev
    subst this
    rfl
  · subst hev
    rfl

/-- Witness for dryMode_no_side_effects at a concrete input with the
bond amount equal to the available credit. -/
theorem dryMode_no_side_effects_witness :
    (checkTransfersCommitted envC9 "r9" "h9" 5 7 5 2 none).2 = Outcome.returned :=
  (dryMode_no_side_effects envC9 "r9" "h9" 5 7 5 2 none (by decide) rfl (Or.inl rfl)
    (by decide) rfl).1

/-! ## Claim C7 -/

/-- Claim C7 (amended): at the precise per-root credit check an
insufficiency is both logged (logger.error) and surfaced to the external
alerting channel (notifier.error) before the evaluation returns; at the
coarse per-cycle pre-filter an insufficiency produces only a debug log
line and is not surfaced to the notifier. -/
theorem insufficientCredit_alerting (env : Env) (r : TransferRoot)
    (rid rhash : String) (amt dest cat src : Nat) (tids : Option (List String))
    (hgate : (cat + env.minDelaySec) * 1000 < env.now)
    (hnb : env.isBonded = false)
    (hhash : tids.getD [] = [] ∨ env.merkleRoot (tids.getD []) = rhash)
    (hins : env.availableCredit < env.getBondForTransferAmount amt) :
    (env.availableCredit < r.totalAmount →
      processDbTransferRoot env r
        = ([Event.logDebug ("not enough credit to bond transferRoot. Have " ++
            toString env.availableCredit ++ ", need " ++ toString r.totalAmount)],
           Outcome.returned))
    ∧ Event.logError ("not enough credit to bond transferRoot. Have " ++
        toString env.availableCredit ++ ", need " ++ toString (env.getBondForTransferAmount amt))
        ∈ (checkTransfersCommitted env rid rhash amt dest cat src tids).1
    ∧ Event.notifierError ("not enough credit to bond transferRoot. Have " ++
        toString env.availableCredit ++ ", need " ++ toString (env.getBondForTransferAmount amt))
        ∈ (checkTransfersCommitted env rid rhash amt dest cat src tids).1
    ∧ (checkTransfersCommitted env rid rhash amt dest cat src tids).2 = Outcome.returned := by
  have hres : checkTransfersCommitted env rid rhash amt dest cat src tids
      = (rootLogEvents rid rhash amt dest cat src ++ hashCheckEvents env (tids.getD []) ++
          [Event.logError ("not enough credit to bond transferRoot. Have " ++
             toString env.availableCredit ++ ", need " ++ toString (env.getBondForTransferAmount amt)),
           Event.notifierError ("not enough credit to bond transferRoot. Have " ++
             toString env.availableCredit ++ ", need " ++ toString (env.getBondForTransferAmount amt))],
         Outcome.returned) := by
    simp only [checkTransfersCommitted]
    split
    next hcond =>
      exfalso
      simp only [decide_eq_false_iff_not, not_lt] at hcond
      have h1000 : ((cat * 1000 : Nat) : Int) = (cat : Int) * 1000 := by push_cast; ring
      omega
    next hcond =>
      split
      next hb => rw [hnb] at hb; exact absurd hb (by simp)
      next hb =>
        split
        next hhashfail =>
          exfalso
          rcases hhash with h | h
          · rw [h] at hhashfail
            simp at hhashfail
          · exact hhashfail.2 h
        next => rfl
  refine ⟨?_, ?_, ?_, ?_⟩
  · intro hcoarse
    simp only [processDbTransferRoot]
    rw [if_pos hcoarse]
  · rw [hres]
    simp
  · rw [hres]
    simp
  · rw [hres]

/-- Witness for insufficientCredit_alerting: the precise check on a
concrete insufficient-credit input emits the notifier error. -/
theorem insufficientCredit_alerting_witness :
    Event.notifierError ("not enough credit to bond transferRoot. Have " ++
        toString envC7.availableCredit ++ ", need " ++
        toString (envC7.getBondForTransferAmount 10))
      ∈ (checkTransfersCommitted envC7 "r7" "h7" 10 7 5 2 none).1 :=
  (insufficientCredit_alerting envC7 rootC7 "r7" "h7" 10 7 5 2 none (by decide) rfl
    (Or.inl rfl) (by decide)).2.2.1

/-- Claim C7 counterexample: an insufficiency at the coarse per-cycle
pre-filter is not surfaced to the notifier — the whole cycle trace
contains no notifier error at all, only the debug skip line. -/
theorem coarseCredit_no_alert_counterexample :
    envC7.availableCredit < rootC7.totalAmount
    ∧ (checkTransfersCommittedFromDb envC7 [rootC7]).1.any isNotifierErrorEvent = false :=
  ⟨by decide, by rfl⟩

/-! ## Claims C2 and C10 -/

theorem collectDbTransferIds_ok (chainId : Nat) (l : List TransferRoot)
    (h : ∀ w ∈ l, w.sourceChainId = chainId → w.transferIds.isSome = true) :
    collectDbTransferIds chainId l
      = Except.ok (((l.filter (fun w => w.sourceChainId == chainId)).map
          (fun w => (w.transferIds.getD []).map toLowerCase)).flatten) := by
  induction l with
  | nil => rfl
  | cons r rest ih =>
    simp only [collectDbTransferIds]
    by_cases hc : r.sourceChainId = chainId
    · rw [if_neg (fun hne => hne hc)]
      have hr : r.transferIds.isSome = true := h r (by simp) hc
      cases htids : r.transferIds with
      | none => rw [htids] at hr; simp at hr
      | some tids =>
        rw [ih (fun w hw hcw => h w (by simp [hw]) hcw)]
        simp [List.filter_cons, hc, htids]
    · rw [if_pos (by simpa using hc)]
      rw [ih (fun w hw hcw => h w (by simp [hw]) hcw)]
      simp [List.filter_cons, hc]

theorem collectDbTransferIds_isOk_iff (chainId : Nat) (l : List TransferRoot) :
    (∃ ids, collectDbTransferIds chainId l = Except.ok ids)
      ↔ ∀ w ∈ l, w.sourceChainId = chainId → w.transferIds.isSome = true := by
  induction l with
  | nil => simp [collectDbTransferIds]
  | cons r rest ih =>
    simp only [collectDbTransferIds]
    by_cases hc : r.sourceChainId = chainId
    · rw [if_neg (fun hne => hne hc)]
      cases htids : r.transferIds with
      | none =>
        apply iff_of_false
        · rintro ⟨ids, hok⟩
          cases hok
        · intro hall
          have := hall r (by simp) hc
          rw [htids] at this
          simp at this
      | some tids =>
        cases hrest : collectDbTransferIds chainId rest with
        | error e =>
          apply iff_of_false
          · rintro ⟨ids, hok⟩
            cases hok
          · intro hall
            rcases ih.mpr (fun w hw hcw => hall w (by simp [hw]) hcw) with ⟨ids, hok⟩
            rw [hrest] at hok
            cases hok
        | ok acc =>
          apply iff_of_true
          · exact ⟨tids.map toLowerCase ++ acc, rfl⟩
          · intro w hw hcw
            rcases List.mem_cons.mp hw with hw | hw
            · subst hw
              rw [htids]
              rfl
            · exact ih.mp ⟨acc, hrest⟩ w hw hcw
    · rw [if_pos (by simpa using hc)]
      rw [ih]
      constructor
      · intro hall w hw hcw
        rcases List.mem_cons.mp hw with hw | hw
        · subst hw
          exact absurd hcw hc
        · exact hall w hw hcw
      · intro hall w hw hcw
        exact hall w (by simp [hw]) hcw

/-- Claim C2: whenever the target record's transfer ids, and those of the
same-source-chain two-week-window records, are present (the absent case
raises instead, see claim C10), the pre-transaction reorg validator
returns a boolean without error, and that boolean is exactly the verdict
of the specification contract reorgValidatorSpecOk: false precisely when
the record is missing or superseded under the recomputed id, the stored
destination chain differs from the one about to be used, or some
case-normalized transfer id of the target fails the exactly-once
uniqueness re-check over the flattened window ids; true otherwise. -/
theorem preTxValidation_matches_spec (env : Env) (rhash : String) (dest amt : Nat)
    (hTarget : ∀ r, env.dbLookup (getTransferRootId rhash amt) = some r →
        r.transferRootId = getTransferRootId rhash amt → r.destinationChainId = dest →
        r.transferIds.isSome = true)
    (hWindow : ∀ w ∈ env.twoWeeksRoots, w.sourceChainId = env.bridgeChainId →
        w.transferIds.isSome = true) :
    (isPreTransactionDataValid env rhash dest amt).2
      = Except.ok (reorgValidatorSpecOk env rhash dest amt) := by
  simp only [isPreTransactionDataValid, reorgValidatorSpecOk]
  split
  next => rfl
  next r hdb =>
    by_cases hid : r.transferRootId = getTransferRootId rhash amt
    · rw [if_neg (fun hne => hne hid)]
      by_cases hdest : r.destinationChainId = dest
      · rw [if_neg (fun hne => hne hdest)]
        have hr : r.transferIds.isSome = true := hTarget r hdb hid hdest
        cases htids : r.transferIds with
        | none => rw [htids] at hr; simp at hr
        | some tids =>
          rw [collectDbTransferIds_ok env.bridgeChainId env.twoWeeksRoots hWindow]
          by_cases hu : (tids.map toLowerCase).all (fun transferId =>
              ((((env.twoWeeksRoots.filter (fun w => w.sourceChainId == env.bridgeChainId)).map
                (fun w => (w.transferIds.getD []).map toLowerCase)).flatten).filter
                (fun dbTransferId => dbTransferId == transferId)).length == 1) = true
          · simp only [hu, hid, hdest, Option.getD_some, beq_self_eq_true, Bool.true_and,
              Bool.true_eq_false, if_false]
          · simp only [Bool.not_eq_true] at hu
            simp only [hu, hid, hdest, Option.getD_some, beq_self_eq_true, Bool.true_and,
              eq_self_iff_true, if_true]
      · rw [if_pos hdest]
        simp [hid, hdest]
    · rw [if_pos hid]
      simp [hid]

/-- Witness for preTxValidation_matches_spec on a concrete store where
validation passes. -/
theorem preTxValidation_matches_spec_witness :
    (isPreTransactionDataValid envC2 "h2" 7 5).2
      = Except.ok (reorgValidatorSpecOk envC2 "h2" 7 5) :=
  preTxValidation_matches_spec envC2 "h2" 7 5
    (by
      intro r hr h1 h2
      have hsome : some rootC2 = some r := hr
      injection hsome with h4
      rw [← h4]
      rfl)
    (by
      intro w hw hcw
      have hw' : w ∈ [rootC2] := hw
      have h4 : w = rootC2 := List.mem_singleton.mp hw'
      subst h4
      rfl)

/-- Claim C10: when the record fetched under the recomputed root id
exists with matching id and destination chain, the validator returns a
boolean without error exactly when transferIds is present on the target
record and on every same-chain record of the two-week window; in
particular an absent transferIds field on the target makes the non-null
assertion dereference raise instead of returning false. -/
theorem preTxValidation_raises_on_missing (env : Env) (rhash : String) (dest amt : Nat)
    (r : TransferRoot)
    (hfound : env.dbLookup (getTransferRootId rhash amt) = some r)
    (hid : r.transferRootId = getTransferRootId rhash amt)
    (hdest : r.destinationChainId = dest) :
    (r.transferIds = none →
      (isPreTransactionDataValid env rhash dest amt).2
        = Except.error "TypeError: calculatedDbTransferRoot.transferIds is undefined")
    ∧ (isOkResult (isPreTransactionDataValid env rhash dest amt).2 = true
        ↔ r.transferIds.isSome = true ∧ ∀ w ∈ env.twoWeeksRoots,
            w.sourceChainId = env.bridgeChainId → w.transferIds.isSome = true) := by
  constructor
  · intro hnone
    simp only [isPreTransactionDataValid, hfound]
    rw [if_neg (fun hne => hne hid), if_neg (fun hne => hne hdest), hnone]
  · simp only [isPreTransactionDataValid, hfound]
    rw [if_neg (fun hne => hne hid), if_neg (fun hne => hne hdest)]
    split
    next htids =>
      apply iff_of_false
      · simp [isOkResult]
      · rintro ⟨hsome, _⟩
        rw [htids] at hsome
        simp at hsome
    next tids htids =>
      split
      next e hrest =>
        apply iff_of_false
        · simp [isOkResult]
        · rintro ⟨hsome, hall⟩
          rcases (collectDbTransferIds_isOk_iff env.bridgeChainId env.twoWeeksRoots).mpr hall
            with ⟨ids, hok⟩
          rw [hrest] at hok
          cases hok
      next acc hrest =>
        apply iff_of_true
        · split <;> rfl
        · refine ⟨by rw [htids]; rfl, ?_⟩
          exact (collectDbTransferIds_isOk_iff env.bridgeChainId env.twoWeeksRoots).mp ⟨acc, hrest⟩

/-- Witness for preTxValidation_raises_on_missing: a matching stored
record without transferIds makes the validator throw the TypeError. -/
theorem preTxValidation_raises_on_missing_witness :
    (isPreTransactionDataValid envC10 "hA" 7 5).2
      = Except.error "TypeError: calculatedDbTransferRoot.transferIds is undefined" :=
  (preTxValidation_raises_on_missing envC10 "hA" 7 5 rootC10 (by rfl) rfl rfl).1 rfl

/-! ## Claims C3 and C8 -/

theorem checkTransfersCommitted_pass (env : Env) (rid rhash : String)
    (amt dest cat src : Nat) (tids : Option (List String))
    (hgate : (cat + env.minDelaySec) * 1000 < env.now)
    (hnb : env.isBonded = false)
    (hhash : tids.getD [] = [] ∨ env.merkleRoot (tids.getD []) = rhash)
    (hcredit : ¬ env.availableCredit < env.getBondForTransferAmount amt)
    (hdry : env.dryMode = false) :
    checkTransfersCommitted env rid rhash amt dest cat src tids
      = (rootLogEvents rid rhash amt dest cat src ++ hashCheckEvents env (tids.getD []) ++
          (sendStage env rid rhash amt dest (env.getBondForTransferAmount amt)).1,
         (sendStage env rid rhash amt dest (env.getBondForTransferAmount amt)).2) := by
  simp only [checkTransfersCommitted]
  split
  next hcond =>
    exfalso
    simp only [decide_eq_false_iff_not, not_lt] at hcond
    have h1000 : ((cat * 1000 : Nat) : Int) = (cat : Int) * 1000 := by push_cast; ring
    omega
  next hcond =>
    split
    next hb => rw [hnb] at hb; exact absurd hb (by simp)
    next hb =>
      split
      next hhashfail =>
        exfalso
        rcases hhash with h | h
        · rw [h] at hhashfail
          simp at hhashfail
        · exact hhashfail.2 h
      next =>
        rw [if_neg (by simp [hdry])]

theorem withdrawFromVault_no_tx (env : Env) (c b : Nat) (h : String) (d a : Nat) :
    Event.bondTransferRootTx h d a ∉ (withdrawFromVaultIfNeeded env c b).1 := by
  simp only [withdrawFromVaultIfNeeded]
  split
  · simp
  · split
    · cases env.withdrawErr <;> simp
    · simp

theorem preTxValid_events_logError (env : Env) (rhash : String) (dest amt : Nat) :
    ∀ ev ∈ (isPreTransactionDataValid env rhash dest amt).1, ∃ m, ev = Event.logError m := by
  intro ev hev
  simp only [isPreTransactionDataValid] at hev
  split at hev
  · exact ⟨_, List.mem_singleton.mp hev⟩
  · split at hev
    · exact ⟨_, List.mem_singleton.mp hev⟩
    · split at hev
      · exact ⟨_, List.mem_singleton.mp hev⟩
      · split at hev
        · simp at hev
        · split at hev
          · simp at hev
          · split at hev
            · exact ⟨_, List.mem_singleton.mp hev⟩
            · simp at hev

/-- Claim C3: whenever an evaluation reaches the send phase, the
sentBondTxAt intent write occurs strictly before any bonding transaction
dispatch in the side-effect trace; the transaction is dispatched only
when the reorg-safety validation (run after the write) returns true; and
a false verdict makes the evaluation throw the reorg error with no
transaction sent at all. -/
theorem intentPersistedBeforeSend (env : Env) (rid rhash : String)
    (amt dest cat src : Nat) (tids : Option (List String))
    (hgate : (cat + env.minDelaySec) * 1000 < env.now)
    (hnb : env.isBonded = false)
    (hhash : tids.getD [] = [] ∨ env.merkleRoot (tids.getD []) = rhash)
    (hcredit : ¬ env.availableCredit < env.getBondForTransferAmount amt)
    (hdry : env.dryMode = false)
    (hvault : (withdrawFromVaultIfNeeded env dest (env.getBondForTransferAmount amt)).2
        = Outcome.returned) :
    ∃ l1 l2, (checkTransfersCommitted env rid rhash amt dest cat src tids).1
        = l1 ++ Event.dbUpdateSentBondTxAt rid env.now :: l2
      ∧ Event.bondTransferRootTx rhash dest amt ∉ l1
      ∧ ((isPreTransactionDataValid env rhash dest amt).2 = Except.ok true →
          Event.bondTransferRootTx rhash dest amt ∈ l2)
      ∧ ((isPreTransactionDataValid env rhash dest amt).2 = Except.ok false →
          (checkTransfersCommitted env rid rhash amt dest cat src tids).2
            = Outcome.threw "Possible reorg detected. bondTransferRoot tx not sent"
          ∧ Event.bondTransferRootTx rhash dest amt ∉ l2) := by
  rw [checkTransfersCommitted_pass env rid rhash amt dest cat src tids hgate hnb hhash hcredit hdry]
  simp only [sendStage, hvault]
  have hpre : Event.bondTransferRootTx rhash dest amt ∉
      rootLogEvents rid rhash amt dest cat src ++ hashCheckEvents env (tids.getD []) ++
      (withdrawFromVaultIfNeeded env dest (env.getBondForTransferAmount amt)).1 ++
      [Event.logDebug ("attempting to bond transfer root id " ++ rid ++
        " with destination chain " ++ toString dest)] := by
    intro hmem
    simp only [List.mem_append, List.mem_singleton] at hmem
    rcases hmem with ((hA | hB) | hC) | hD
    · simp [rootLogEvents] at hA
    · simp only [hashCheckEvents] at hB
      exact Event.noConfusion (mem_ite_singleton _ _ hB)
    · exact withdrawFromVault_no_tx env dest (env.getBondForTransferAmount amt) rhash dest amt hC
    · exact Event.noConfusion hD
  have hval : Event.bondTransferRootTx rhash dest amt
      ∉ (isPreTransactionDataValid env rhash dest amt).1 := by
    intro hmem
    rcases preTxValid_events_logError env rhash dest amt _ hmem with ⟨m, hm⟩
    exact Event.noConfusion hm
  cases hv : (isPreTransactionDataValid env rhash dest amt).2 with
  | error e =>
    simp only [sendBondTransferRoot, hv]
    refine ⟨_, (isPreTransactionDataValid env rhash dest amt).1 ++
      [Event.logError ("sendBondTransferRoot error: " ++ e)], ?_, hpre, ?_, ?_⟩
    · simp [List.append_assoc]
    · intro h
      exact Except.noConfusion h
    · intro h
      exact Except.noConfusion h
  | ok b =>
    cases b with
    | false =>
      simp only [sendBondTransferRoot, hv]
      refine ⟨_, (isPreTransactionDataValid env rhash dest amt).1 ++
        [Event.logError ("sendBondTransferRoot error: " ++
          "Possible reorg detected. bondTransferRoot tx not sent")], ?_, hpre, ?_, ?_⟩
      · simp [List.append_assoc]
      · intro h
        exfalso
        rw [Except.ok.injEq] at h
        exact Bool.noConfusion h
      · intro h
        refine ⟨by trivial, ?_⟩
        intro hmem
        rcases List.mem_append.mp hmem with hm | hm
        · exact hval hm
        · exact Event.noConfusion (List.mem_singleton.mp hm)
    | true =>
      cases hbe : env.bondTxErr with
      | some e2 =>
        simp only [sendBondTransferRoot, hv, hbe]
        refine ⟨_, ((isPreTransactionDataValid env rhash dest amt).1 ++
          [Event.bondTransferRootTx rhash dest amt]) ++
          [Event.logError ("sendBondTransferRoot error: " ++ e2)], ?_, hpre, ?_, ?_⟩
        · simp [List.append_assoc]
        · intro h
          simp
        · intro h
          exfalso
          rw [Except.ok.injEq] at h
          exact Bool.noConfusion h
      | none =>
        simp only [sendBondTransferRoot, hv, hbe]
        refine ⟨_, ((isPreTransactionDataValid env rhash dest amt).1 ++
          [Event.bondTransferRootTx rhash dest amt]) ++
          [Event.logInfo ("L1 bondTransferRoot dest " ++ toString dest ++ ", tx " ++
             env.bondTxHash ++ " transferRootHash: " ++ rhash),
           Event.notifierInfo ("L1 bondTransferRoot dest " ++ toString dest ++ ", tx " ++
             env.bondTxHash ++ " transferRootHash: " ++ rhash)], ?_, hpre, ?_, ?_⟩
        · simp [List.append_assoc]
        · intro h
          simp
        · intro h
          exfalso
          rw [Except.ok.injEq] at h
          exact Bool.noConfusion h

/-- Witness for intentPersistedBeforeSend at a concrete passing input:
the intent write splits the trace and the transaction event follows it. -/
theorem intentPersistedBeforeSend_witness :
    ∃ l1 l2, (checkTransfersCommitted envC8 "h8:5" "h8" 5 7 5 2 none).1
        = l1 ++ Event.dbUpdateSentBondTxAt "h8:5" envC8.now :: l2
      ∧ Event.bondTransferRootTx "h8" 7 5 ∉ l1
      ∧ ((isPreTransactionDataValid envC8 "h8" 7 5).2 = Except.ok true →
          Event.bondTransferRootTx "h8" 7 5 ∈ l2)
      ∧ ((isPreTransactionDataValid envC8 "h8" 7 5).2 = Except.ok false →
          (checkTransfersCommitted envC8 "h8:5" "h8" 5 7 5 2 none).2
            = Outcome.threw "Possible reorg detected. bondTransferRoot tx not sent"
          ∧ Event.bondTransferRootTx "h8" 7 5 ∉ l2) :=
  intentPersistedBeforeSend envC8 "h8:5" "h8" 5 7 5 2 none (by decide) rfl (Or.inl rfl)
    (by decide) rfl rfl

/-- Claim C8 (amended): when dispatch of the bonding transaction fails,
the failure is logged and the error propagates uncaught to the caller,
with nothing after the log line — in particular no notifier call is made
for the failure and the send is not retried within the cycle; the
external notification the original claim describes does not happen. -/
theorem sendFailure_logged_rethrown (env : Env) (rid rhash : String)
    (amt dest cat src : Nat) (tids : Option (List String)) (e : String)
    (hgate : (cat + env.minDelaySec) * 1000 < env.now)
    (hnb : env.isBonded = false)
    (hhash : tids.getD [] = [] ∨ env.merkleRoot (tids.getD []) = rhash)
    (hcredit : ¬ env.availableCredit < env.getBondForTransferAmount amt)
    (hdry : env.dryMode = false)
    (hvault : (withdrawFromVaultIfNeeded env dest (env.getBondForTransferAmount amt)).2
        = Outcome.returned)
    (hvalid : (isPreTransactionDataValid env rhash dest amt).2 = Except.ok true)
    (herr : env.bondTxErr = some e) :
    (checkTransfersCommitted env rid rhash amt dest cat src tids).2 = Outcome.threw e
    ∧ ∃ l1, (checkTransfersCommitted env rid rhash amt dest cat src tids).1
        = l1 ++ [Event.bondTransferRootTx rhash dest amt,
                 Event.logError ("sendBondTransferRoot error: " ++ e)] := by
  rw [checkTransfersCommitted_pass env rid rhash amt dest cat src tids hgate hnb hhash hcredit hdry]
  simp only [sendStage, hvault, sendBondTransferRoot, hvalid, herr]
  constructor
  · trivial
  · refine ⟨rootLogEvents rid rhash amt dest cat src ++ hashCheckEvents env (tids.getD []) ++
      (withdrawFromVaultIfNeeded env dest (env.getBondForTransferAmount amt)).1 ++
      [Event.logDebug ("attempting to bond transfer root id " ++ rid ++
        " with destination chain " ++ toString dest),
       Event.dbUpdateSentBondTxAt rid env.now] ++
      (isPreTransactionDataValid env rhash dest amt).1, ?_⟩
    simp [List.append_assoc]

/-- Witness for sendFailure_logged_rethrown at a concrete input where
the dispatch fails with "boom". -/
theorem sendFailure_logged_rethrown_witness :
    (checkTransfersCommitted envC8 "h8:5" "h8" 5 7 5 2 none).2 = Outcome.threw "boom" :=
  (sendFailure_logged_rethrown envC8 "h8:5" "h8" 5 7 5 2 none "boom" (by decide) rfl
    (Or.inl rfl) (by decide) rfl rfl (by rfl) rfl).1

/-- Claim C8 counterexample: a run whose bonding transaction fails
throws the error to the caller but performs no notifier call at all, so
the failure is not externally notified as the claim states. -/
theorem sendFailure_not_notified_counterexample :
    (checkTransfersCommitted envC8 "h8:5" "h8" 5 7 5 2 none).2 = Outcome.threw "boom"
    ∧ (checkTransfersCommitted envC8 "h8:5" "h8" 5 7 5 2 none).1.any isNotifierErrorEvent
        = false
    ∧ ¬ ∃ m, Event.notifierError m ∈ (checkTransfersCommitted envC8 "h8:5" "h8" 5 7 5 2 none).1 := by
  refine ⟨by rfl, by rfl, ?_⟩
  rintro ⟨m, hm⟩
  have hany : (checkTransfersCommitted envC8 "h8:5" "h8" 5 7 5 2 none).1.any isNotifierErrorEvent
      = true := List.any_eq_true.mpr ⟨_, hm, rfl⟩
  have hfalse : (checkTransfersCommitted envC8 "h8:5" "h8" 5 7 5 2 none).1.any isNotifierErrorEvent
      = false := by rfl
  rw [hany] at hfalse
  exact Bool.noConfusion hfalse
